import Mathlib

/-!
# Unix time layer of Tcl (`unix/tclUnixTime.c`)

A shallow embedding of the time functions of `unix/tclUnixTime.c`:

* the file-scope variables and the function-local `static`s form one record, `State`;
* everything a call reads from outside the file at the moment it runs (the operating
  system's clocks, the environment, the C library, the host application) is one record,
  `World`;
* the build-time choices (`#if defined(CLOCK_MONOTONIC)`, `#elif defined(MAC_OSX_TCL)`,
  the width of C `long`) are one record, `Config`;
* every C function is a Lean function of the same name taking the configuration, the state
  and the world, and returning its result (and the new state when it writes one).

Machine integers are `Int`/`Nat` with explicit reduction modulo `2 ^ w`; the two `double`
results of the wide-click functions are exact rationals.
-/

namespace TclUnixTime

/-! ## Machine integers -/

/-- Value held by a two's-complement signed integer of `bits` bits after storing `v`. -/
def toSigned (bits : Nat) (v : Int) : Int :=
  (v + 2 ^ (bits - 1)) % 2 ^ bits - 2 ^ (bits - 1)

/-- Value held by an unsigned integer of `bits` bits after storing `v`. -/
def toUnsigned (bits : Nat) (v : Int) : Nat :=
  (v % 2 ^ bits).toNat

/-- The constant `UINT64_MAX` of `<stdint.h>`. -/
def UINT64_MAX : Nat := 2 ^ 64 - 1

/-- The constant `INT64_MAX` of `<stdint.h>`. -/
def INT64_MAX : Nat := 2 ^ 63 - 1

/-- Conversion to `Tcl_WideInt`, a signed 64-bit integer (arithmetic in it wraps). -/
def wide (v : Int) : Int := toSigned 64 v

/-! ## Build configuration -/

/-- Build-time choices that select the code compiled from the file. -/
structure Config where
  /-- Width in bits of C `long`: both fields of `Tcl_Time`, and the `unsigned long`
  results, have this width (the declarations live in `tcl.h`). -/
  longBits : Nat
  /-- True when the platform headers define `CLOCK_MONOTONIC`. -/
  CLOCK_MONOTONIC : Bool
  /-- True when the build defines `MAC_OSX_TCL`. -/
  MAC_OSX_TCL : Bool

/-- Conversion to C `long`. -/
def toLong (cfg : Config) (v : Int) : Int := toSigned cfg.longBits v

/-- Conversion to C `unsigned long`. -/
def toULong (cfg : Config) (v : Int) : Nat := toUnsigned cfg.longBits v

/-! ## Data -/

/-- The `Tcl_Time` record: seconds and microseconds. -/
structure Tcl_Time where
  sec : Int
  usec : Int
deriving DecidableEq, Repr

/-- The `struct timeval` record of `gettimeofday`. -/
structure timeval where
  tv_sec : Int
  tv_usec : Int
deriving DecidableEq, Repr

/-- The `struct timespec` record of `clock_gettime`. -/
structure timespec where
  tv_sec : Int
  tv_nsec : Int
deriving DecidableEq, Repr

/-- The `mach_timebase_info_data_t` record: a scale factor `numer / denom`
(two unsigned 32-bit fields). -/
structure mach_timebase_info_data_t where
  numer : Nat
  denom : Nat
deriving DecidableEq, Repr

/-- The `struct tm` record of the C library. -/
structure tm where
  tm_sec : Int
  tm_min : Int
  tm_hour : Int
  tm_mday : Int
  tm_mon : Int
  tm_year : Int
  tm_wday : Int
  tm_yday : Int
  tm_isdst : Int
deriving DecidableEq, Repr

/-- A `ClientData` value: an untyped pointer, `0` for `NULL`. -/
abbrev ClientData := Nat

/-- What a call can observe outside this file at the moment it runs. Each field holds a
value of its C type: `mach_absolute_time` is below `2 ^ 64`, the two fields of
`mach_timebase_info` are below `2 ^ 32`. -/
structure World where
  /-- Result of `time(NULL)`. -/
  time : Int
  /-- What `gettimeofday` stores. -/
  gettimeofday : timeval
  /-- Return code of `clock_gettime(CLOCK_MONOTONIC, &mntv)`. -/
  clock_gettime_rc : Int
  /-- Contents of `mntv` after `clock_gettime(CLOCK_MONOTONIC, &mntv)`. -/
  clock_gettime : timespec
  /-- Result of `mach_absolute_time()`, an unsigned 64-bit counter. -/
  mach_absolute_time : Nat
  /-- What `mach_timebase_info` stores. -/
  mach_timebase_info : mach_timebase_info_data_t
  /-- Result of `getenv("TZ")`, `none` for `NULL`. -/
  getenv_TZ : Option String
  /-- The C library's `gmtime`/`gmtime_r`. -/
  gmtime : Int → tm
  /-- The C library's `localtime`/`localtime_r`, given the time-zone value that the
  last `tzset` saw. -/
  localtime : Option String → Int → tm
  /-- Whatever else of the host application a registered procedure may read. -/
  host : Nat

/-- A `Tcl_GetTimeProc *`: either the address of `NativeGetTime` or the address of a
procedure supplied by the host, which receives the time buffer and the client data. -/
inductive Tcl_GetTimeProc where
  | NativeGetTime
  | hostProc (f : World → Tcl_Time → ClientData → Tcl_Time)

/-- A `Tcl_ScaleTimeProc *`: either the address of `NativeScaleTime` or the address of a
procedure supplied by the host, which receives the time buffer and the client data. -/
inductive Tcl_ScaleTimeProc where
  | NativeScaleTime
  | hostProc (f : World → Tcl_Time → ClientData → Tcl_Time)

/-- The test `p == NativeGetTime`. -/
def Tcl_GetTimeProc.isNative : Tcl_GetTimeProc → Bool
  | .NativeGetTime => true
  | .hostProc _ => false

/-- The test `p == NativeScaleTime`. -/
def Tcl_ScaleTimeProc.isNative : Tcl_ScaleTimeProc → Bool
  | .NativeScaleTime => true
  | .hostProc _ => false

/-- The variables of the file: the three time hooks, `lastTZ`, the `static` locals of
`TclpGetUTimeMonotonic`, `TclpWideClicksToNanoseconds` and `TclpWideClickInMicrosec`,
and two counters that record the calls made to `tzset` and to
`Tcl_CreateExitHandler(CleanupMemory, NULL)`. -/
structure State where
  tclGetTimeProcPtr : Tcl_GetTimeProc
  tclScaleTimeProcPtr : Tcl_ScaleTimeProc
  tclTimeClientData : ClientData
  /-- The variable `lastTZ`, `none` for `NULL`. -/
  lastTZ : Option String
  /-- The `static tb` of `TclpGetUTimeMonotonic`. -/
  mono_tb : mach_timebase_info_data_t
  /-- The `static maxClicksForUInt64` of `TclpGetUTimeMonotonic`. -/
  mono_maxClicksForUInt64 : Nat
  /-- The `static tb` of `TclpWideClicksToNanoseconds`. -/
  nsec_tb : mach_timebase_info_data_t
  /-- The `static maxClicksForUInt64` of `TclpWideClicksToNanoseconds`. -/
  nsec_maxClicksForUInt64 : Nat
  /-- The `static initialized` of `TclpWideClickInMicrosec`. -/
  initialized : Bool
  /-- The `static scale` of `TclpWideClickInMicrosec`. -/
  scale : Rat
  /-- The time-zone value seen by the last `tzset`, `none` before the first. -/
  libcTZ : Option String
  /-- Number of calls of `tzset` so far. -/
  tzsetCalls : Nat
  /-- Number of calls of `Tcl_CreateExitHandler(CleanupMemory, NULL)` so far. -/
  exitHandlers : Nat

/-- The state at process start: the initialisers of the file-scope variables, and zero
for every `static` local. -/
def State.init : State where
  tclGetTimeProcPtr := .NativeGetTime
  tclScaleTimeProcPtr := .NativeScaleTime
  tclTimeClientData := 0
  lastTZ := none
  mono_tb := ⟨0, 0⟩
  mono_maxClicksForUInt64 := 0
  nsec_tb := ⟨0, 0⟩
  nsec_maxClicksForUInt64 := 0
  initialized := false
  scale := 0
  libcTZ := none
  tzsetCalls := 0
  exitHandlers := 0

/-! ## The time hooks -/

/-- `NativeGetTime`: stores the result of `gettimeofday` in the buffer. -/
def NativeGetTime (cfg : Config) (w : World) (_timePtr : Tcl_Time) (_clientData : ClientData) :
    Tcl_Time :=
  { sec := toLong cfg w.gettimeofday.tv_sec, usec := toLong cfg w.gettimeofday.tv_usec }

/-- `NativeScaleTime`: leaves the buffer as it is. -/
def NativeScaleTime (timePtr : Tcl_Time) (_clientData : ClientData) : Tcl_Time :=
  timePtr

/-- A call through a `Tcl_GetTimeProc *`; the result is the buffer after the call. -/
def Tcl_GetTimeProc.call (cfg : Config) (p : Tcl_GetTimeProc) (w : World) (timebuf : Tcl_Time)
    (clientData : ClientData) : Tcl_Time :=
  match p with
  | .NativeGetTime => TclUnixTime.NativeGetTime cfg w timebuf clientData
  | .hostProc f => f w timebuf clientData

/-- A call through a `Tcl_ScaleTimeProc *`; the result is the buffer after the call. -/
def Tcl_ScaleTimeProc.call (p : Tcl_ScaleTimeProc) (w : World) (timebuf : Tcl_Time)
    (clientData : ClientData) : Tcl_Time :=
  match p with
  | .NativeScaleTime => TclUnixTime.NativeScaleTime timebuf clientData
  | .hostProc f => f w timebuf clientData

/-- `Tcl_SetTimeProc`: stores the three arguments. -/
def Tcl_SetTimeProc (st : State) (getProc : Tcl_GetTimeProc) (scaleProc : Tcl_ScaleTimeProc)
    (clientData : ClientData) : State :=
  { st with
    tclGetTimeProcPtr := getProc
    tclScaleTimeProcPtr := scaleProc
    tclTimeClientData := clientData }

/-- `Tcl_QueryTimeProc`: each argument is the location the caller passes, `none` for a
`NULL` pointer and `some v` for a location that holds `v`; the result is the three
locations after the call. -/
def Tcl_QueryTimeProc (st : State) (getProc : Option Tcl_GetTimeProc)
    (scaleProc : Option Tcl_ScaleTimeProc) (clientData : Option ClientData) :
    Option Tcl_GetTimeProc × Option Tcl_ScaleTimeProc × Option ClientData :=
  let getProc := if getProc.isSome then some st.tclGetTimeProcPtr else getProc
  let scaleProc := if scaleProc.isSome then some st.tclScaleTimeProcPtr else scaleProc
  let clientData := if clientData.isSome then some st.tclTimeClientData else clientData
  (getProc, scaleProc, clientData)

/-- `Tcl_GetTime`: the buffer `timePtr` after the registered procedure ran on it. -/
def Tcl_GetTime (cfg : Config) (st : State) (w : World) (timePtr : Tcl_Time) : Tcl_Time :=
  st.tclGetTimeProcPtr.call cfg w timePtr st.tclTimeClientData

/-- `TclpScaleUTime`: the value of `*usec` after the call. -/
def TclpScaleUTime (cfg : Config) (st : State) (w : World) (usec : Int) : Int :=
  if !st.tclScaleTimeProcPtr.isNative then
    usec
  else
    let scTime : Tcl_Time :=
      { sec := toLong cfg (Int.tdiv usec 1000000), usec := toLong cfg (Int.tmod usec 1000000) }
    let scTime := st.tclScaleTimeProcPtr.call w scTime st.tclTimeClientData
    wide (scTime.sec * 1000000 + scTime.usec)

/-! ## Clock readers -/

/-- `TclpGetSeconds`. -/
def TclpGetSeconds (cfg : Config) (w : World) : Nat :=
  toULong cfg w.time

/-- `TclpGetMicroseconds`; `time` is the content of the uninitialised local handed to the
registered procedure. -/
def TclpGetMicroseconds (cfg : Config) (st : State) (w : World) (time : Tcl_Time) : Int :=
  if st.tclGetTimeProcPtr.isNative then
    let tv := w.gettimeofday
    wide (tv.tv_sec * 1000000 + tv.tv_usec)
  else
    let time := st.tclGetTimeProcPtr.call cfg w time st.tclTimeClientData
    wide (time.sec * 1000000 + time.usec)

/-- The two conversions of lines 159-163: an absolute-time counter to microseconds, in
unsigned 64-bit arithmetic. -/
def absoluteToUsec (tb : mach_timebase_info_data_t) (maxClicksForUInt64 clicks : Nat) : Nat :=
  if clicks < maxClicksForUInt64 then
    (clicks * tb.numer % 2 ^ 64) / 1000 / tb.denom
  else
    (clicks / 1000 * tb.numer % 2 ^ 64) / tb.denom

/-- `TclpGetUTimeMonotonic`: the result and the state after the call (the `static`s of
the absolute-time branch are filled on first use). -/
def TclpGetUTimeMonotonic (cfg : Config) (st : State) (w : World) (time : Tcl_Time) :
    Int × State :=
  if st.tclGetTimeProcPtr.isNative then
    if cfg.CLOCK_MONOTONIC then
      let mntv := w.clock_gettime
      if w.clock_gettime_rc ≠ 0 then
        (TclpGetMicroseconds cfg st w time, st)
      else
        (wide (mntv.tv_sec * 1000000 + Int.tdiv mntv.tv_nsec 1000), st)
    else if cfg.MAC_OSX_TCL then
      let clicks := w.mach_absolute_time % 2 ^ 64
      let st :=
        if st.mono_tb.denom = 0 then
          { st with
            mono_tb := w.mach_timebase_info
            mono_maxClicksForUInt64 := UINT64_MAX / w.mach_timebase_info.numer }
        else st
      (wide (absoluteToUsec st.mono_tb st.mono_maxClicksForUInt64 clicks), st)
    else
      (TclpGetMicroseconds cfg st w time, st)
  else
    let time := st.tclGetTimeProcPtr.call cfg w time st.tclTimeClientData
    (wide (time.sec * 1000000 + time.usec), st)

/-- `TclpGetClicks`: the monotonic microseconds converted to `unsigned long`. -/
def TclpGetClicks (cfg : Config) (st : State) (w : World) (time : Tcl_Time) : Nat × State :=
  let r := TclpGetUTimeMonotonic cfg st w time
  (toULong cfg r.1, r.2)

/-- `TclpGetWideClicks`. -/
def TclpGetWideClicks (cfg : Config) (st : State) (w : World) (time : Tcl_Time) : Int :=
  if st.tclGetTimeProcPtr.isNative then
    if cfg.CLOCK_MONOTONIC then
      let mntv := w.clock_gettime
      wide (mntv.tv_sec * 1000000 * 1000 + mntv.tv_nsec)
    else if cfg.MAC_OSX_TCL then
      wide (Nat.land (w.mach_absolute_time % 2 ^ 64) INT64_MAX)
    else
      TclpGetMicroseconds cfg st w time
  else
    let time := st.tclGetTimeProcPtr.call cfg w time st.tclTimeClientData
    let now := wide (time.sec * 1000000 + time.usec)
    now

/-- `TclpWideClicksToNanoseconds`: the `double` result as an exact rational, and the state
after the call. -/
def TclpWideClicksToNanoseconds (cfg : Config) (st : State) (w : World) (clicks : Int) :
    Rat × State :=
  if st.tclGetTimeProcPtr.isNative then
    if cfg.CLOCK_MONOTONIC then
      ((clicks : Rat), st)
    else if cfg.MAC_OSX_TCL then
      let st :=
        if st.nsec_tb.denom = 0 then
          { st with
            nsec_tb := w.mach_timebase_info
            nsec_maxClicksForUInt64 := UINT64_MAX / w.mach_timebase_info.numer }
        else st
      let tb := st.nsec_tb
      if toUnsigned 64 clicks < st.nsec_maxClicksForUInt64 then
        (((toUnsigned 64 clicks * tb.numer % 2 ^ 64 / tb.denom : Nat) : Rat), st)
      else
        ((toUnsigned 64 clicks : Rat) * tb.numer / tb.denom, st)
    else
      ((wide (clicks * 1000) : Rat), st)
  else
    ((wide (clicks * 1000) : Rat), st)

/-- `TclpWideClickInMicrosec`: the `double` result as an exact rational, and the state
after the call. -/
def TclpWideClickInMicrosec (cfg : Config) (st : State) (w : World) : Rat × State :=
  if st.tclGetTimeProcPtr.isNative then
    if !cfg.MAC_OSX_TCL then
      (1 / 1000, st)
    else
      if st.initialized then
        (st.scale, st)
      else
        let tb := w.mach_timebase_info
        let scale : Rat := (tb.numer : Rat) / tb.denom / 1000
        (scale, { st with scale := scale, initialized := true })
  else
    (1, st)

/-! ## Calendar conversion and the time-zone cache -/

/-- `SetTZIfNecessary`. -/
def SetTZIfNecessary (st : State) (w : World) : State :=
  let newTZ : String :=
    match w.getenv_TZ with
    | none => ""
    | some s => s
  let changed : Bool :=
    match st.lastTZ with
    | none => true
    | some last => last != newTZ
  if changed then
    let st := { st with libcTZ := w.getenv_TZ, tzsetCalls := st.tzsetCalls + 1 }
    let st :=
      match st.lastTZ with
      | none => { st with exitHandlers := st.exitHandlers + 1 }
      | some _ => st
    { st with lastTZ := some newTZ }
  else st

/-- `CleanupMemory`, the exit handler: it frees the storage `lastTZ` points to and writes
no variable of the file (heap storage itself is not part of `State`). -/
def CleanupMemory (st : State) (_ignored : ClientData) : State :=
  st

/-- `TclpGmtime`: the content of the calling thread's `gmtime_buf` after the call. -/
def TclpGmtime (w : World) (timePtr : Int) : tm :=
  w.gmtime timePtr

/-- `TclpLocaltime`: the content of the calling thread's `localtime_buf` after the call,
and the state after the call. -/
def TclpLocaltime (st : State) (w : World) (timePtr : Int) : tm × State :=
  let st := SetTZIfNecessary st w
  (w.localtime st.libcTZ timePtr, st)

/-- `TclpGetDate`. -/
def TclpGetDate (st : State) (w : World) (time : Int) (useGMT : Int) : tm × State :=
  if useGMT ≠ 0 then
    (TclpGmtime w time, st)
  else
    TclpLocaltime st w time

/-! ## Sequences of calls -/

/-- One call of a function of the file, with its arguments. -/
inductive Call where
  | TclpGetSeconds
  | TclpGetMicroseconds (time : Tcl_Time)
  | TclpGetUTimeMonotonic (time : Tcl_Time)
  | TclpGetClicks (time : Tcl_Time)
  | TclpGetWideClicks (time : Tcl_Time)
  | TclpWideClicksToNanoseconds (clicks : Int)
  | TclpWideClickInMicrosec
  | Tcl_GetTime (timePtr : Tcl_Time)
  | TclpGetDate (time : Int) (useGMT : Int)
  | TclpGmtime (timePtr : Int)
  | TclpLocaltime (timePtr : Int)
  | Tcl_SetTimeProc (getProc : Tcl_GetTimeProc) (scaleProc : Tcl_ScaleTimeProc)
      (clientData : ClientData)
  | Tcl_QueryTimeProc (getProc : Option Tcl_GetTimeProc)
      (scaleProc : Option Tcl_ScaleTimeProc) (clientData : Option ClientData)
  | TclpScaleUTime (usec : Int)

/-- True for a call of `Tcl_SetTimeProc`. -/
def Call.isSetTimeProc : Call → Bool
  | .Tcl_SetTimeProc _ _ _ => true
  | _ => false

/-- The state after one call made in world `w`. -/
def step (cfg : Config) (st : State) (w : World) : Call → State
  | .TclpGetSeconds => st
  | .TclpGetMicroseconds _ => st
  | .TclpGetUTimeMonotonic time => (TclpGetUTimeMonotonic cfg st w time).2
  | .TclpGetClicks time => (TclpGetClicks cfg st w time).2
  | .TclpGetWideClicks _ => st
  | .TclpWideClicksToNanoseconds clicks => (TclpWideClicksToNanoseconds cfg st w clicks).2
  | .TclpWideClickInMicrosec => (TclpWideClickInMicrosec cfg st w).2
  | .Tcl_GetTime _ => st
  | .TclpGetDate time useGMT => (TclpGetDate st w time useGMT).2
  | .TclpGmtime _ => st
  | .TclpLocaltime timePtr => (TclpLocaltime st w timePtr).2
  | .Tcl_SetTimeProc getProc scaleProc clientData =>
      Tcl_SetTimeProc st getProc scaleProc clientData
  | .Tcl_QueryTimeProc _ _ _ => st
  | .TclpScaleUTime _ => st

/-- The state after a sequence of calls, each made in its own world. -/
def run (cfg : Config) (st : State) : List (World × Call) → State
  | [] => st
  | wc :: rest => run cfg (step cfg st wc.1 wc.2) rest

/-- Number of `tzset` calls made by each call of a sequence. -/
def tzsetTrace (cfg : Config) (st : State) : List (World × Call) → List Nat
  | [] => []
  | wc :: rest =>
      ((step cfg st wc.1 wc.2).tzsetCalls - st.tzsetCalls) ::
        tzsetTrace cfg (step cfg st wc.1 wc.2) rest

/-- Number of exit-handler registrations made by each call of a sequence. -/
def exitHandlerTrace (cfg : Config) (st : State) : List (World × Call) → List Nat
  | [] => []
  | wc :: rest =>
      ((step cfg st wc.1 wc.2).exitHandlers - st.exitHandlers) ::
        exitHandlerTrace cfg (step cfg st wc.1 wc.2) rest

/-- A sequence of local-time conversion requests: each is a call of `TclpLocaltime`
made in a world of its own. -/
def localtimeRequests (rs : List (World × Int)) : List (World × Call) :=
  rs.map fun r => (r.1, Call.TclpLocaltime r.2)

/-- The time-zone values the requests of a sequence see, an absent `TZ` read as `""`. -/
def tzValues (rs : List (World × Int)) : List String :=
  rs.map fun r => r.1.getenv_TZ.getD ""

/-- Number of positions of a list whose value differs from the one before. -/
def changes : List String → Nat
  | a :: b :: rest => (if a ≠ b then 1 else 0) + changes (b :: rest)
  | _ => 0

/-- For each value of a list, 1 when it differs from the value before it (`prev` for the
first) and 0 otherwise. -/
def changeFlags (prev : String) : List String → List Nat
  | [] => []
  | v :: rest => (if v ≠ prev then 1 else 0) :: changeFlags v rest

/-- The three hooks a state holds. -/
def State.binding (st : State) : Tcl_GetTimeProc × Tcl_ScaleTimeProc × ClientData :=
  (st.tclGetTimeProcPtr, st.tclScaleTimeProcPtr, st.tclTimeClientData)

/-! ## Sample inputs -/

/-- An LP64 build on a platform with `CLOCK_MONOTONIC` (Linux). -/
def Config.posix64 : Config := ⟨64, true, false⟩

/-- An LP64 build with `MAC_OSX_TCL` on a platform without `CLOCK_MONOTONIC`. -/
def Config.mach64 : Config := ⟨64, false, true⟩

/-- An LP64 build with `MAC_OSX_TCL` on a platform that also has `CLOCK_MONOTONIC`. -/
def Config.machPosix64 : Config := ⟨64, true, true⟩

/-- An LP64 build with neither `CLOCK_MONOTONIC` nor `MAC_OSX_TCL`. -/
def Config.fallback64 : Config := ⟨64, false, false⟩

/-- The `struct tm` of 1970-01-01T00:00:00, a Thursday. -/
def tm.epoch : tm := ⟨0, 0, 0, 1, 0, 70, 4, 0, 0⟩

/-- A world: the clocks read 1700000000.25 s (wall) and 5000.000001500 s (monotonic), the
absolute-time counter reads `clicks` with scale `numer / denom`, `TZ` is `tz`. -/
def World.sample (clicks numer denom : Nat) (tz : Option String) : World where
  time := 1700000000
  gettimeofday := ⟨1700000000, 250000⟩
  clock_gettime_rc := 0
  clock_gettime := ⟨5000, 1500⟩
  mach_absolute_time := clicks
  mach_timebase_info := ⟨numer, denom⟩
  getenv_TZ := tz
  gmtime := fun _ => tm.epoch
  localtime := fun _ _ => tm.epoch
  host := 0

/-- Five local-time requests that see `TZ` unset, unset, `UTC`, `UTC`, `EST5EDT`. -/
def sampleRequests : List (World × Int) :=
  [(World.sample 0 1 1 none, 0), (World.sample 0 1 1 none, 60),
   (World.sample 0 1 1 (some "UTC"), 120), (World.sample 0 1 1 (some "UTC"), 180),
   (World.sample 0 1 1 (some "EST5EDT"), 240)]

/-- A host scale procedure that adds one second to the buffer. -/
def addOneSecond : Tcl_ScaleTimeProc :=
  .hostProc fun _ t _ => { t with sec := t.sec + 1 }

/-- A host time procedure that always stores 100 s, 0 µs. -/
def fixedTime : Tcl_GetTimeProc :=
  .hostProc fun _ _ _ => ⟨100, 0⟩

/-! ## Facts about the machine integers -/

theorem toSigned_of_range (bits : Nat) (hb : 0 < bits) (v : Int)
    (hlo : -(2 ^ (bits - 1)) ≤ v) (hhi : v < 2 ^ (bits - 1)) : toSigned bits v = v := by
  unfold toSigned
  have h2 : (2 : Int) ^ bits = 2 * 2 ^ (bits - 1) := by
    obtain ⟨k, rfl⟩ : ∃ k, bits = k + 1 := ⟨bits - 1, by omega⟩
    simp [pow_succ, mul_comm]
  rw [h2, Int.emod_eq_of_lt (by omega) (by omega)]
  omega

theorem wide_of_range (v : Int) (hlo : -(2 ^ 63) ≤ v) (hhi : v < 2 ^ 63) : wide v = v :=
  toSigned_of_range 64 (by decide) v (by simpa using hlo) (by simpa using hhi)

/-! ## The time hooks: registration, query, scaling -/

theorem step_binding (cfg : Config) (st : State) (w : World) (c : Call)
    (h : c.isSetTimeProc = false) : (step cfg st w c).binding = st.binding := by
  cases c
  case Tcl_SetTimeProc => simp [Call.isSetTimeProc] at h
  all_goals
    simp only [step, State.binding, TclpGetUTimeMonotonic, TclpGetClicks,
      TclpWideClicksToNanoseconds, TclpWideClickInMicrosec, TclpGetDate, TclpLocaltime,
      SetTZIfNecessary]
    repeat' split
    all_goals rfl

theorem run_binding (cfg : Config) (calls : List (World × Call)) (st : State)
    (h : ∀ wc ∈ calls, wc.2.isSetTimeProc = false) : (run cfg st calls).binding = st.binding := by
  induction calls generalizing st with
  | nil => rfl
  | cons wc rest ih =>
    simp only [run]
    rw [ih _ (fun x hx => h x (List.mem_cons_of_mem _ hx))]
    exact step_binding cfg st wc.1 wc.2 (h wc (List.mem_cons_self _ _))

theorem TclpScaleUTime_of_hostProc (cfg : Config) (st : State) (w : World) (usec : Int)
    (h : st.tclScaleTimeProcPtr.isNative = false) : TclpScaleUTime cfg st w usec = usec := by
  simp [TclpScaleUTime, h]

/-- C1: with a host scale procedure registered (one that adds a second), `TclpScaleUTime`
leaves 5 µs at 5 µs, although the procedure applied to the reading (0 s, 5 µs) gives
(1 s, 5 µs), that is 1000005 µs: the registered scale procedure is not applied. -/
theorem TclpScaleUTime_skips_registered_scale :
    TclpScaleUTime Config.posix64
        (Tcl_SetTimeProc State.init .NativeGetTime addOneSecond 0)
        (World.sample 0 1 1 none) 5 = 5 ∧
      (addOneSecond.call (World.sample 0 1 1 none) ⟨5 / 1000000, 5 % 1000000⟩ 0).sec * 1000000 +
        (addOneSecond.call (World.sample 0 1 1 none) ⟨5 / 1000000, 5 % 1000000⟩ 0).usec
        = 1000005 := by
  constructor
  · rfl
  · decide

/-- C3: after `Tcl_SetTimeProc g s c`, and after any further calls none of which is
`Tcl_SetTimeProc`, `Tcl_GetTime` stores exactly what `g` stores when called with the
client data `c`; so when `g` always stores (100 s, 0 µs), `Tcl_GetTime` returns
(100 s, 0 µs). -/
theorem Tcl_GetTime_after_SetTimeProc (cfg : Config) (st : State) (g : Tcl_GetTimeProc)
    (s : Tcl_ScaleTimeProc) (c : ClientData) (calls : List (World × Call))
    (hcalls : ∀ wc ∈ calls, wc.2.isSetTimeProc = false) (w : World) (timePtr : Tcl_Time) :
    Tcl_GetTime cfg (run cfg (Tcl_SetTimeProc st g s c) calls) w timePtr
        = g.call cfg w timePtr c ∧
      ((∀ (w1 : World) (b : Tcl_Time) (d : ClientData), g.call cfg w1 b d = ⟨100, 0⟩) →
        Tcl_GetTime cfg (run cfg (Tcl_SetTimeProc st g s c) calls) w timePtr = ⟨100, 0⟩) := by
  have hb := run_binding cfg calls (Tcl_SetTimeProc st g s c) hcalls
  have hg : (run cfg (Tcl_SetTimeProc st g s c) calls).tclGetTimeProcPtr = g :=
    congrArg Prod.fst hb
  have hc : (run cfg (Tcl_SetTimeProc st g s c) calls).tclTimeClientData = c :=
    congrArg (fun b => b.2.2) hb
  have h1 : Tcl_GetTime cfg (run cfg (Tcl_SetTimeProc st g s c) calls) w timePtr
      = g.call cfg w timePtr c := by
    simp only [Tcl_GetTime, hg, hc]
  exact ⟨h1, fun hg => by rw [h1, hg]⟩

theorem Tcl_GetTime_after_SetTimeProc_witness :
    Tcl_GetTime Config.posix64
        (run Config.posix64 (Tcl_SetTimeProc State.init fixedTime addOneSecond 7)
          [(World.sample 0 1 1 none, Call.TclpLocaltime 0),
           (World.sample 0 1 1 (some "UTC"), Call.TclpGetClicks ⟨0, 0⟩),
           (World.sample 5 1 1 none, Call.TclpScaleUTime 12)])
        (World.sample 9 1 1 none) ⟨3, 4⟩ = ⟨100, 0⟩ :=
  (Tcl_GetTime_after_SetTimeProc Config.posix64 State.init fixedTime addOneSecond 7
    [(World.sample 0 1 1 none, Call.TclpLocaltime 0),
     (World.sample 0 1 1 (some "UTC"), Call.TclpGetClicks ⟨0, 0⟩),
     (World.sample 5 1 1 none, Call.TclpScaleUTime 12)]
    (by simp [Call.isSetTimeProc]) (World.sample 9 1 1 none) ⟨3, 4⟩).2
    (fun _ _ _ => rfl)

/-- C4: after `Tcl_SetTimeProc g s c`, `Tcl_QueryTimeProc` stores `g`, `s` and `c` in the
three locations it is given; a location that is omitted (`NULL`) stays omitted, each
location receives the same value whichever of the other two are omitted, and the call
leaves the state, so the registered hooks, as it was. -/
theorem Tcl_QueryTimeProc_after_SetTimeProc (cfg : Config) (st : State) (w : World)
    (g : Tcl_GetTimeProc) (s : Tcl_ScaleTimeProc) (c : ClientData)
    (getProc : Option Tcl_GetTimeProc) (scaleProc : Option Tcl_ScaleTimeProc)
    (clientData : Option ClientData) (g0 : Tcl_GetTimeProc) (s0 : Tcl_ScaleTimeProc)
    (c0 : ClientData) :
    Tcl_QueryTimeProc (Tcl_SetTimeProc st g s c) (some g0) (some s0) (some c0)
        = (some g, some s, some c) ∧
      Tcl_QueryTimeProc (Tcl_SetTimeProc st g s c) getProc scaleProc clientData
        = (getProc.map (fun _ => g), scaleProc.map (fun _ => s), clientData.map (fun _ => c)) ∧
      step cfg (Tcl_SetTimeProc st g s c) w (Call.Tcl_QueryTimeProc getProc scaleProc clientData)
        = Tcl_SetTimeProc st g s c ∧
      (Tcl_SetTimeProc st g s c).binding = (g, s, c) := by
  refine ⟨rfl, ?_, rfl, rfl⟩
  cases getProc <;> cases scaleProc <;> cases clientData <;> rfl

/-- C10: whenever the registered time procedure is not the native one, in every build
configuration and whatever the clocks read, `TclpGetMicroseconds`,
`TclpGetUTimeMonotonic` and `TclpGetWideClicks` each return `sec * 1000000 + usec`
(computed in `Tcl_WideInt`, so exactly that value whenever it fits in 64 bits) of the
reading the registered procedure stores when called with the stored client data, and
`TclpGetClicks` returns that value converted to `unsigned long`. -/
theorem virtual_time_source_decides (cfg : Config) (st : State) (w : World) (time : Tcl_Time)
    (h : st.tclGetTimeProcPtr.isNative = false) :
    TclpGetMicroseconds cfg st w time
        = wide ((st.tclGetTimeProcPtr.call cfg w time st.tclTimeClientData).sec * 1000000
            + (st.tclGetTimeProcPtr.call cfg w time st.tclTimeClientData).usec) ∧
      (TclpGetUTimeMonotonic cfg st w time).1 = TclpGetMicroseconds cfg st w time ∧
      TclpGetWideClicks cfg st w time = TclpGetMicroseconds cfg st w time ∧
      (TclpGetClicks cfg st w time).1 = toULong cfg (TclpGetMicroseconds cfg st w time) ∧
      (-(2 ^ 63) ≤ (st.tclGetTimeProcPtr.call cfg w time st.tclTimeClientData).sec * 1000000
            + (st.tclGetTimeProcPtr.call cfg w time st.tclTimeClientData).usec →
        (st.tclGetTimeProcPtr.call cfg w time st.tclTimeClientData).sec * 1000000
            + (st.tclGetTimeProcPtr.call cfg w time st.tclTimeClientData).usec < 2 ^ 63 →
        TclpGetMicroseconds cfg st w time
          = (st.tclGetTimeProcPtr.call cfg w time st.tclTimeClientData).sec * 1000000
            + (st.tclGetTimeProcPtr.call cfg w time st.tclTimeClientData).usec) := by
  have hm : TclpGetMicroseconds cfg st w time
      = wide ((st.tclGetTimeProcPtr.call cfg w time st.tclTimeClientData).sec * 1000000
            + (st.tclGetTimeProcPtr.call cfg w time st.tclTimeClientData).usec) := by
    simp [TclpGetMicroseconds, h]
  refine ⟨hm, ?_, ?_, ?_, ?_⟩
  · simp [TclpGetUTimeMonotonic, TclpGetMicroseconds, h]
  · simp [TclpGetWideClicks, TclpGetMicroseconds, h]
  · simp [TclpGetClicks, TclpGetUTimeMonotonic, TclpGetMicroseconds, h]
  · intro hlo hhi
    rw [hm]
    exact wide_of_range _ hlo hhi

theorem virtual_time_source_decides_witness :
    TclpGetMicroseconds Config.mach64
        (Tcl_SetTimeProc State.init fixedTime .NativeScaleTime 0)
        (World.sample 77 125 3 none) ⟨1, 2⟩ = 100000000 ∧
      (TclpGetUTimeMonotonic Config.mach64
        (Tcl_SetTimeProc State.init fixedTime .NativeScaleTime 0)
        (World.sample 77 125 3 none) ⟨1, 2⟩).1 = 100000000 ∧
      TclpGetWideClicks Config.mach64
        (Tcl_SetTimeProc State.init fixedTime .NativeScaleTime 0)
        (World.sample 77 125 3 none) ⟨1, 2⟩ = 100000000 ∧
      (TclpGetClicks Config.mach64
        (Tcl_SetTimeProc State.init fixedTime .NativeScaleTime 0)
        (World.sample 77 125 3 none) ⟨1, 2⟩).1 = 100000000 := by
  have h := virtual_time_source_decides Config.mach64
    (Tcl_SetTimeProc State.init fixedTime .NativeScaleTime 0)
    (World.sample 77 125 3 none) ⟨1, 2⟩ rfl
  have e := h.2.2.2.2 (by decide) (by decide)
  refine ⟨e, h.2.1.trans e, h.2.2.1.trans e, ?_⟩
  rw [h.2.2.2.1, e]
  decide

/-! ## The time-zone cache -/

theorem SetTZIfNecessary_uninitialized (st : State) (w : World) (h : st.lastTZ = none) :
    (SetTZIfNecessary st w).lastTZ = some (w.getenv_TZ.getD "") ∧
      (SetTZIfNecessary st w).tzsetCalls = st.tzsetCalls + 1 ∧
      (SetTZIfNecessary st w).exitHandlers = st.exitHandlers + 1 := by
  cases hw : w.getenv_TZ <;> simp [SetTZIfNecessary, h, hw]

theorem SetTZIfNecessary_same (st : State) (w : World)
    (h : st.lastTZ = some (w.getenv_TZ.getD "")) : SetTZIfNecessary st w = st := by
  cases hw : w.getenv_TZ <;> simp [SetTZIfNecessary, h, hw]

theorem SetTZIfNecessary_tracking (st : State) (w : World) (prev : String)
    (h : st.lastTZ = some prev) :
    (SetTZIfNecessary st w).lastTZ = some (w.getenv_TZ.getD "") ∧
      (SetTZIfNecessary st w).tzsetCalls
        = st.tzsetCalls + (if w.getenv_TZ.getD "" ≠ prev then 1 else 0) ∧
      (SetTZIfNecessary st w).exitHandlers = st.exitHandlers := by
  by_cases hv : w.getenv_TZ.getD "" = prev
  · rw [SetTZIfNecessary_same st w (by rw [h, hv])]
    simp [h, hv]
  · have hv2 : prev ≠ w.getenv_TZ.getD "" := fun e => hv e.symm
    cases hw : w.getenv_TZ <;> simp_all [SetTZIfNecessary]

theorem tracking_trace (cfg : Config) (rs : List (World × Int)) (st : State) (prev : String)
    (h : st.lastTZ = some prev) :
    tzsetTrace cfg st (localtimeRequests rs) = changeFlags prev (tzValues rs) ∧
      (run cfg st (localtimeRequests rs)).tzsetCalls
        = st.tzsetCalls + (changeFlags prev (tzValues rs)).sum ∧
      exitHandlerTrace cfg st (localtimeRequests rs) = List.replicate rs.length 0 ∧
      (run cfg st (localtimeRequests rs)).exitHandlers = st.exitHandlers := by
  induction rs generalizing st prev with
  | nil => simp [localtimeRequests, tzValues, tzsetTrace, changeFlags, run, exitHandlerTrace]
  | cons r rest ih =>
    obtain ⟨h1, h2, h3⟩ := SetTZIfNecessary_tracking st r.1 prev h
    obtain ⟨i1, i2, i3, i4⟩ := ih (SetTZIfNecessary st r.1) _ h1
    simp only [localtimeRequests, tzValues, List.map_cons, tzsetTrace, changeFlags, run,
      exitHandlerTrace, step, TclpLocaltime, List.sum_cons, List.length_cons,
      List.replicate_succ] at i1 i2 i3 i4 ⊢
    refine ⟨?_, ?_, ?_, ?_⟩
    · rw [i1, h2]; simp
    · rw [i2, h2]; omega
    · rw [i3, h3]; simp
    · rw [i4, h3]

theorem changeFlags_getD (vs : List String) (prev : String) (i : Nat) (hi : i < vs.length) :
    (changeFlags prev vs).getD i 0
      = if vs.getD i "" ≠ (prev :: vs).getD i "" then 1 else 0 := by
  induction vs generalizing prev i with
  | nil => simp at hi
  | cons v rest ih =>
    cases i with
    | zero => simp [changeFlags]
    | succ j =>
      have hj : j < rest.length := by simpa using hi
      simp only [changeFlags, List.getD_cons_succ]
      exact ih v j hj

theorem changeFlags_sum (vs : List String) (prev : String) :
    (changeFlags prev vs).sum = changes (prev :: vs) := by
  induction vs generalizing prev with
  | nil => simp [changeFlags, changes]
  | cons v rest ih =>
    simp only [changeFlags, List.sum_cons, changes, ih v]
    by_cases hv : v = prev
    · simp [hv]
    · have hv2 : prev ≠ v := fun e => hv e.symm
      simp [hv, hv2]

/-- C5: for local-time conversion requests made from the uninitialised cache
(`lastTZ == NULL`) that see the `TZ` values `v 0, v 1, ...` (an absent `TZ` read as
`""`), request `i` calls `tzset` once when `i = 0` or `v i ≠ v (i - 1)` and not at all
otherwise; the number of `tzset` calls of a non-empty sequence is 1 plus the number of
changes of value; and a request whose `TZ` value equals the tracked one leaves the whole
state, so the tracked value and the `tzset` count, as it was. -/
theorem tzset_once_per_change (cfg : Config) (st : State) (hst : st.lastTZ = none)
    (rs : List (World × Int)) :
    (∀ i, i < rs.length →
        (tzsetTrace cfg st (localtimeRequests rs)).getD i 0
          = if i = 0 ∨ (tzValues rs).getD i "" ≠ (tzValues rs).getD (i - 1) "" then 1 else 0) ∧
      (rs ≠ [] →
        (run cfg st (localtimeRequests rs)).tzsetCalls
          = st.tzsetCalls + 1 + changes (tzValues rs)) ∧
      (∀ (s : State) (w : World) (t : Int), s.lastTZ = some (w.getenv_TZ.getD "") →
        (TclpLocaltime s w t).2 = s) := by
  refine ⟨?_, ?_, ?_⟩
  · intro i hi
    cases rs with
    | nil => simp at hi
    | cons r rest =>
      obtain ⟨h1, h2, _⟩ := SetTZIfNecessary_uninitialized st r.1 hst
      obtain ⟨i1, _, _, _⟩ := tracking_trace cfg rest (SetTZIfNecessary st r.1) _ h1
      simp only [localtimeRequests, tzValues, List.map_cons, tzsetTrace, step,
        TclpLocaltime] at i1 ⊢
      cases i with
      | zero => simp [h2]
      | succ j =>
        have hj : j < (rest.map fun r => r.1.getenv_TZ.getD "").length := by simpa using hi
        rw [List.getD_cons_succ, i1, changeFlags_getD _ _ j hj]
        simp
  · intro hne
    cases rs with
    | nil => exact absurd rfl hne
    | cons r rest =>
      obtain ⟨h1, h2, _⟩ := SetTZIfNecessary_uninitialized st r.1 hst
      obtain ⟨_, i2, _, _⟩ := tracking_trace cfg rest (SetTZIfNecessary st r.1) _ h1
      simp only [localtimeRequests, tzValues, List.map_cons, run, step, TclpLocaltime]
        at i2 ⊢
      rw [i2, h2, changeFlags_sum]
  · intro s w t h
    simp only [TclpLocaltime]
    exact SetTZIfNecessary_same s w h

theorem tzset_once_per_change_witness :
    State.init.lastTZ = none ∧
      (tzsetTrace Config.posix64 State.init (localtimeRequests sampleRequests)).getD 1 0 = 0 ∧
      (tzsetTrace Config.posix64 State.init (localtimeRequests sampleRequests)).getD 2 0 = 1 ∧
      (run Config.posix64 State.init (localtimeRequests sampleRequests)).tzsetCalls = 3 := by
  have h := tzset_once_per_change Config.posix64 State.init rfl sampleRequests
  refine ⟨rfl, ?_, ?_, ?_⟩
  · rw [h.1 1 (by decide)]; decide
  · rw [h.1 2 (by decide)]; decide
  · rw [h.2.1 (by simp [sampleRequests])]; decide

theorem step_exitHandlers (cfg : Config) (st : State) (w : World) (c : Call)
    (h : st.exitHandlers = if st.lastTZ.isSome then 1 else 0) :
    (step cfg st w c).exitHandlers = if (step cfg st w c).lastTZ.isSome then 1 else 0 := by
  have key : (SetTZIfNecessary st w).exitHandlers
      = if (SetTZIfNecessary st w).lastTZ.isSome then 1 else 0 := by
    cases hl : st.lastTZ with
    | none =>
      obtain ⟨h1, _, h3⟩ := SetTZIfNecessary_uninitialized st w hl
      rw [h1, h3, h, hl]; rfl
    | some prev =>
      obtain ⟨h1, _, h3⟩ := SetTZIfNecessary_tracking st w prev hl
      rw [h1, h3, h, hl]
      simp
  cases c
  case TclpLocaltime => exact key
  case TclpGetDate time useGMT =>
    by_cases hu : useGMT = 0
    · simpa [step, TclpGetDate, TclpLocaltime, hu] using key
    · simpa [step, TclpGetDate, hu] using h
  all_goals
    simp only [step, TclpGetUTimeMonotonic, TclpGetClicks, TclpWideClicksToNanoseconds,
      TclpWideClickInMicrosec, Tcl_SetTimeProc]
    repeat' split
    all_goals simp_all

theorem run_exitHandlers (cfg : Config) (calls : List (World × Call)) (st : State)
    (h : st.exitHandlers = if st.lastTZ.isSome then 1 else 0) :
    (run cfg st calls).exitHandlers = if (run cfg st calls).lastTZ.isSome then 1 else 0 := by
  induction calls generalizing st with
  | nil => exact h
  | cons wc rest ih => exact ih _ (step_exitHandlers cfg st wc.1 wc.2 h)

/-- C9: the exit handler that frees `lastTZ` is registered exactly once. After every
sequence of calls from process start, the number of registrations is 1 if `lastTZ` holds
a value and 0 if it is still `NULL`; in every sequence of local-time conversion requests,
whatever `TZ` values they see, the first request registers the handler and no later
request does, so any non-empty sequence ends with exactly one registration. -/
theorem exit_handler_registered_once (cfg : Config) :
    (∀ calls : List (World × Call),
        (run cfg State.init calls).exitHandlers
          = if (run cfg State.init calls).lastTZ.isSome then 1 else 0) ∧
      (∀ (rs : List (World × Int)) (i : Nat), i < rs.length →
        (exitHandlerTrace cfg State.init (localtimeRequests rs)).getD i 0
          = if i = 0 then 1 else 0) ∧
      (∀ rs : List (World × Int), rs ≠ [] →
        (run cfg State.init (localtimeRequests rs)).exitHandlers = 1 ∧
        (run cfg State.init (localtimeRequests rs)).lastTZ.isSome = true) := by
  have hfirst : ∀ (r : World × Int) (rest : List (World × Int)),
      exitHandlerTrace cfg State.init (localtimeRequests (r :: rest))
          = 1 :: List.replicate rest.length 0 ∧
        (run cfg State.init (localtimeRequests (r :: rest))).exitHandlers = 1 := by
    intro r rest
    obtain ⟨h1, _, h3⟩ := SetTZIfNecessary_uninitialized State.init r.1 rfl
    obtain ⟨_, _, i3, i4⟩ := tracking_trace cfg rest (SetTZIfNecessary State.init r.1) _ h1
    simp only [localtimeRequests, List.map_cons, exitHandlerTrace, run, step,
      TclpLocaltime] at i3 i4 ⊢
    rw [i3, i4, h3]
    exact ⟨rfl, rfl⟩
  refine ⟨fun calls => run_exitHandlers cfg calls State.init rfl, ?_, ?_⟩
  · intro rs i hi
    cases rs with
    | nil => simp at hi
    | cons r rest =>
      rw [(hfirst r rest).1]
      cases i with
      | zero => simp
      | succ j =>
        have hj : j < rest.length := by simpa using hi
        simp [List.getD_cons_succ, List.getD_eq_getElem?_getD, hj]
  · intro rs hne
    cases rs with
    | nil => exact absurd rfl hne
    | cons r rest =>
      have e := (hfirst r rest).2
      have inv := run_exitHandlers cfg (localtimeRequests (r :: rest)) State.init rfl
      refine ⟨e, ?_⟩
      rw [e] at inv
      by_contra hc
      simp [hc] at inv

theorem exit_handler_registered_once_witness :
    (exitHandlerTrace Config.posix64 State.init (localtimeRequests sampleRequests)).getD 0 0 = 1 ∧
      (exitHandlerTrace Config.posix64 State.init (localtimeRequests sampleRequests)).getD 4 0
        = 0 ∧
      (run Config.posix64 State.init (localtimeRequests sampleRequests)).exitHandlers = 1 := by
  have h := exit_handler_registered_once Config.posix64
  exact ⟨h.2.1 sampleRequests 0 (by decide), h.2.1 sampleRequests 4 (by decide),
    (h.2.2 sampleRequests (by simp [sampleRequests])).1⟩

/-! ## Clock readers -/

theorem TclpGetUTimeMonotonic_posix (cfg : Config) (st : State) (w : World) (time : Tcl_Time)
    (hn : st.tclGetTimeProcPtr.isNative = true) (hc : cfg.CLOCK_MONOTONIC = true)
    (hrc : w.clock_gettime_rc = 0) (hs0 : 0 ≤ w.clock_gettime.tv_sec)
    (hs1 : w.clock_gettime.tv_sec < 2 ^ 43) (hn0 : 0 ≤ w.clock_gettime.tv_nsec)
    (hn1 : w.clock_gettime.tv_nsec < 1000000000) :
    (TclpGetUTimeMonotonic cfg st w time).1
      = w.clock_gettime.tv_sec * 1000000 + w.clock_gettime.tv_nsec / 1000 := by
  simp only [TclpGetUTimeMonotonic, hn, hc, hrc, if_true, ne_eq, not_true_eq_false, if_false]
  rw [Int.tdiv_eq_ediv hn0 (by norm_num)]
  exact wide_of_range _ (by omega) (by omega)

theorem TclpGetUTimeMonotonic_posix_monotone (cfg : Config) (st : State) (w1 w2 : World)
    (time1 time2 : Tcl_Time)
    (hn : st.tclGetTimeProcPtr.isNative = true) (hc : cfg.CLOCK_MONOTONIC = true)
    (hrc1 : w1.clock_gettime_rc = 0) (hrc2 : w2.clock_gettime_rc = 0)
    (hs0 : 0 ≤ w1.clock_gettime.tv_sec) (hs1 : w2.clock_gettime.tv_sec < 2 ^ 43)
    (hn1 : 0 ≤ w1.clock_gettime.tv_nsec ∧ w1.clock_gettime.tv_nsec < 1000000000)
    (hn2 : 0 ≤ w2.clock_gettime.tv_nsec ∧ w2.clock_gettime.tv_nsec < 1000000000)
    (hle : w1.clock_gettime.tv_sec < w2.clock_gettime.tv_sec ∨
      (w1.clock_gettime.tv_sec = w2.clock_gettime.tv_sec ∧
        w1.clock_gettime.tv_nsec ≤ w2.clock_gettime.tv_nsec)) :
    (TclpGetUTimeMonotonic cfg st w1 time1).1 ≤ (TclpGetUTimeMonotonic cfg st w2 time2).1 := by
  rw [TclpGetUTimeMonotonic_posix cfg st w1 time1 hn hc hrc1 hs0 (by omega) hn1.1 hn1.2,
    TclpGetUTimeMonotonic_posix cfg st w2 time2 hn hc hrc2 (by omega) hs1 hn2.1 hn2.2]
  omega

theorem absoluteToUsec_below (tb : mach_timebase_info_data_t) (clicks : Nat)
    (hc : clicks < UINT64_MAX / tb.numer) :
    clicks * tb.numer ≤ UINT64_MAX ∧
      absoluteToUsec tb (UINT64_MAX / tb.numer) clicks = clicks * tb.numer / 1000 / tb.denom := by
  have h1 : clicks * tb.numer ≤ UINT64_MAX :=
    le_trans (Nat.mul_le_mul_right _ hc.le) (Nat.div_mul_le_self _ _)
  refine ⟨h1, ?_⟩
  have h2 : clicks * tb.numer % 2 ^ 64 = clicks * tb.numer :=
    Nat.mod_eq_of_lt (by unfold UINT64_MAX at h1; omega)
  simp only [absoluteToUsec, hc, if_true, if_false, h2]

theorem absoluteToUsec_above (tb : mach_timebase_info_data_t) (clicks : Nat)
    (hn : tb.numer ≤ 1000) (hc : ¬ clicks < UINT64_MAX / tb.numer) (hc64 : clicks < 2 ^ 64) :
    clicks / 1000 * tb.numer ≤ UINT64_MAX ∧
      absoluteToUsec tb (UINT64_MAX / tb.numer) clicks = clicks / 1000 * tb.numer / tb.denom := by
  have h1 : clicks / 1000 * tb.numer ≤ clicks :=
    le_trans (Nat.mul_le_mul_left _ hn) (Nat.div_mul_le_self _ _)
  have h2 : clicks / 1000 * tb.numer % 2 ^ 64 = clicks / 1000 * tb.numer :=
    Nat.mod_eq_of_lt (by omega)
  refine ⟨by unfold UINT64_MAX; omega, ?_⟩
  simp only [absoluteToUsec, hc, if_true, if_false, h2]

/-- C6: under the absolute-time backend with the scale 1000000000 / 33333335, two calls
in sequence that read the counter values 18446744072 and 18446744073 (one below the
threshold `UINT64_MAX / numer = 18446744073`, one at it) return 553402294 µs and then
553402292 µs: the later reading gives the smaller result. -/
theorem TclpGetUTimeMonotonic_steps_back :
    UINT64_MAX / 1000000000 = 18446744073 ∧
      (TclpGetUTimeMonotonic Config.mach64 State.init
        (World.sample 18446744072 1000000000 33333335 none) ⟨0, 0⟩).1 = 553402294 ∧
      (TclpGetUTimeMonotonic Config.mach64
        (TclpGetUTimeMonotonic Config.mach64 State.init
          (World.sample 18446744072 1000000000 33333335 none) ⟨0, 0⟩).2
        (World.sample 18446744073 1000000000 33333335 none) ⟨0, 0⟩).1 = 553402292 := by
  refine ⟨by decide, by decide, by decide⟩

/-- C7: under the absolute-time backend with the scale 1000000000 / 33333335, the counter
value 18446744074000 is not below the threshold, the product
`clicks / 1000 * numer = 18446744074000000000` exceeds `UINT64_MAX`, and
`TclpGetUTimeMonotonic` returns 8, not the 553402294549 that the same expression gives
over unbounded integers. -/
theorem TclpGetUTimeMonotonic_product_overflows :
    ¬ (18446744074000 < UINT64_MAX / 1000000000) ∧
      UINT64_MAX < 18446744074000 / 1000 * 1000000000 ∧
      18446744074000 / 1000 * 1000000000 / 33333335 = 553402294549 ∧
      (TclpGetUTimeMonotonic Config.mach64 State.init
        (World.sample 18446744074000 1000000000 33333335 none) ⟨0, 0⟩).1 = 8 := by
  refine ⟨by decide, by decide, by decide, by decide⟩

theorem wide_click_scale_virtual (cfg : Config) (st : State) (w : World)
    (h : st.tclGetTimeProcPtr.isNative = false) :
    (TclpWideClicksToNanoseconds cfg st w 1).1 / 1000 = (TclpWideClickInMicrosec cfg st w).1 := by
  have e : wide 1000 = 1000 := by decide
  simp [TclpWideClicksToNanoseconds, TclpWideClickInMicrosec, h, e]

theorem wide_click_scale_posix (cfg : Config) (st : State) (w : World)
    (hc : cfg.CLOCK_MONOTONIC = true) (hm : cfg.MAC_OSX_TCL = false) :
    (TclpWideClicksToNanoseconds cfg st w 1).1 / 1000 = (TclpWideClickInMicrosec cfg st w).1 := by
  cases hn : st.tclGetTimeProcPtr.isNative
  · exact wide_click_scale_virtual cfg st w hn
  · simp [TclpWideClicksToNanoseconds, TclpWideClickInMicrosec, hn, hc, hm]

/-- C8: with the native time source the two wide-click conversions disagree in three
build configurations. Without `CLOCK_MONOTONIC` and without `MAC_OSX_TCL` one wide click
converts to 1000 ns, so 1 µs, while `TclpWideClickInMicrosec` returns 1/1000. With both
`CLOCK_MONOTONIC` and `MAC_OSX_TCL` and the scale 125 / 3, one wide click converts to
1 ns, so 1/1000 µs, while `TclpWideClickInMicrosec` returns 1/24. With `MAC_OSX_TCL`
alone and the scale 125 / 3, one wide click converts to 41 ns, so 41/1000 µs, while
`TclpWideClickInMicrosec` returns 1/24. -/
theorem wide_click_scale_inconsistent :
    ((TclpWideClicksToNanoseconds Config.fallback64 State.init
          (World.sample 0 1 1 none) 1).1 / 1000 = 1 ∧
        (TclpWideClickInMicrosec Config.fallback64 State.init
          (World.sample 0 1 1 none)).1 = 1 / 1000) ∧
      ((TclpWideClicksToNanoseconds Config.machPosix64 State.init
          (World.sample 0 125 3 none) 1).1 / 1000 = 1 / 1000 ∧
        (TclpWideClickInMicrosec Config.machPosix64 State.init
          (World.sample 0 125 3 none)).1 = 1 / 24) ∧
      ((TclpWideClicksToNanoseconds Config.mach64 State.init
          (World.sample 0 125 3 none) 1).1 / 1000 = 41 / 1000 ∧
        (TclpWideClickInMicrosec Config.mach64 State.init
          (World.sample 0 125 3 none)).1 = 1 / 24) := by
  have e : wide 1000 = 1000 := by decide
  have u : toUnsigned 64 1 = 1 := by decide
  have m : UINT64_MAX / 125 = 147573952589676412 := by decide
  refine ⟨⟨?_, ?_⟩, ⟨?_, ?_⟩, ⟨?_, ?_⟩⟩ <;>
    norm_num [TclpWideClicksToNanoseconds, TclpWideClickInMicrosec, Config.fallback64,
      Config.machPosix64, Config.mach64, State.init, World.sample, Tcl_GetTimeProc.isNative,
      e, u, m]

end TclUnixTime
